import Mathlib

/-!
Shallow embedding of the rockbench workload generator
(`generator/document.go` and the dispatch loop of `main.go`).

Randomness is made explicit: every call of Go's `rand.Intn(n)` consumes one
arbitrary natural number `r` and yields `r % n`, and panics when `n = 0`
(Go's `rand.Intn` panics for non-positive arguments).  Faker-generated field
values, UUIDs and wall-clock timestamps are not load bearing for any claim
and are modelled by abstract values.
-/

namespace Rockbench

/-- Model of Go `rand.Intn n` applied to one raw random draw `r`:
`none` models the panic on an empty range, otherwise the result is in
`[0, n)`. -/
def intn (n : Nat) (r : Nat) : Option Nat :=
  if n = 0 then none else some (r % n)

/-- The package-level mutable state of `generator/document.go`:
`doc_id` (the sequential id counter) and `max_doc_id` (the exclusive
upper bound of existing ids, returned by `getMaxDoc`). -/
structure GenState where
  doc_id : Nat
  max_doc_id : Nat
deriving DecidableEq

/-- `getMaxDoc` of the source: returns `max_doc_id`. -/
def getMaxDoc (st : GenState) : Nat :=
  st.max_doc_id

/-- `SetMaxDoc` of the source: sets `max_doc_id` only.  (The assignment
`doc_id = maxDocId` is commented out in the source.) -/
def SetMaxDoc (maxDocId : Nat) (st : GenState) : GenState :=
  { st with max_doc_id := maxDocId }

/-- The decimal digit characters produced by Go's `%d` / `%024d` verbs. -/
def dchar : Nat → Char
  | 0 => '0'
  | 1 => '1'
  | 2 => '2'
  | 3 => '3'
  | 4 => '4'
  | 5 => '5'
  | 6 => '6'
  | 7 => '7'
  | 8 => '8'
  | 9 => '9'
  | _ => '?'

/-- Little-endian decimal digit list of `n` as printed by `%d`
(the single digit `0` for `n = 0`). -/
def decDigits (n : Nat) : List Nat :=
  if n = 0 then [0] else Nat.digits 10 n

/-- Decimal representation of a natural number, Go's `%d`. -/
def decRepr (n : Nat) : String :=
  String.mk ((decDigits n).reverse.map dchar)

/-- Little-endian decimal digits of `n` zero-padded (at the significant end)
to 24 digits, the digit content of Go's `%024d`. -/
def docDigits (n : Nat) : List Nat :=
  Nat.digits 10 n ++ List.replicate (24 - (Nat.digits 10 n).length) 0

/-- `formatDocId` of the source: `fmt.Sprintf("%024d", id)`, the 24-digit
zero-padded decimal representation. -/
def formatDocId (id : Nat) : String :=
  String.mk ((docDigits id).reverse.map dchar)

/-- Values stored in a generated document.  Faker payload values, UUID
strings and timestamps are abstract: no claim depends on their content. -/
inductive DVal where
  | str : String → DVal
  | time : DVal
  | payload : DVal
deriving DecidableEq

/-- A generated document: a Go `map[string]interface{}` modelled as an
association list with replace-or-append assignment. -/
abbrev Doc := List (String × DVal)

/-- Go map assignment `doc[k] = v`: replace the binding if the key is
present, otherwise add it. -/
def setKey : Doc → String → DVal → Doc
  | [], k, v => [(k, v)]
  | (k1, v1) :: rest, k, v =>
    if k1 = k then (k, v) :: rest else (k1, v1) :: setKey rest k v

/-- The keys of a document. -/
def keys (doc : Doc) : List String :=
  doc.map Prod.fst

/-- The JSON field names of `DocStructDouble`, the payload every
`GenerateDoc` call starts from. -/
def payloadFields : List String :=
  ["Guid",
   "Balance1", "Balance2", "Balance3", "Balance4", "Balance5",
   "Balance6", "Balance7", "Balance8", "Balance9", "Balance10",
   "Email1", "Email2", "Email3", "Email4", "Email5",
   "Email6", "Email7", "Email8", "Email9", "Email10",
   "Phone1", "Phone2", "Phone3", "Phone4", "Phone5",
   "Phone6", "Phone7", "Phone8", "Phone9", "Phone10",
   "Boolean1", "Boolean2", "Boolean3", "Boolean4", "Boolean5",
   "Boolean6", "Boolean7", "Boolean8", "Boolean9", "Boolean10",
   "Address1", "Address2", "Address3", "Address4", "Address5",
   "Name1", "Name2", "Name3", "Name4", "Name5",
   "Tags1"]

/-- The faker-generated payload document (`json.Unmarshal` of the marshalled
`DocStructDouble`). -/
def payloadDoc : Doc :=
  payloadFields.map (fun k => (k, DVal.payload))

/-- `DocumentSpec` of the source. -/
structure DocumentSpec where
  Destination : String
  GeneratorIdentifier : String
  BatchSize : Nat
  Mode : String
  IdMode : String
  UpdatePercentage : Int
  NumClusters : Int
  HotClusterPercentage : Int
deriving DecidableEq

/-- The raw random draws consumed by one `GenerateDoc` call, one per
potential `rand.Intn` / `uuid.New` call site. -/
structure Draws where
  branch : Nat
  updateId : Nat
  hot : Nat
  cluster : Nat
  uuid : String
deriving DecidableEq

/-- The ways a generation call can die: a `rand.Intn` panic on an empty
range, or the explicit `panic` on an unsupported id mode. -/
inductive GenErr where
  | intnZero : GenErr
  | unsupportedIdMode : GenErr
deriving DecidableEq

/-- `getClusterKey` of the source: with `hotClusterPercentage > 0` and a
favourable draw return the designated hot key, otherwise one of
`numClusters` uniform keys (`rand.Intn(numClusters)` panics when
`numClusters <= 0`). -/
def getClusterKey (numClusters hotClusterPercentage : Int) (dHot dCluster : Nat) :
    Except GenErr String :=
  if hotClusterPercentage > 0 ∧ ((dHot % 100 : Nat) : Int) < hotClusterPercentage then
    .ok "0@gmail.com"
  else
    match intn numClusters.toNat dCluster with
    | none => .error .intnZero
    | some c => .ok (decRepr c ++ "@gmail.com")

/-- The `_id` assignment block of `GenerateDoc` (lines 427-448 of the
source): returns the id string to set (none when the destination is not
"rockset") and the updated counter state. -/
def assignId (spec : DocumentSpec) (d : Draws) (st : GenState) :
    Except GenErr (Option String × GenState) :=
  if spec.Destination = "rockset" then
    if spec.Mode = "mixed" then
      if ((d.branch % 100 : Nat) : Int) < spec.UpdatePercentage then
        match intn (getMaxDoc st) d.updateId with
        | none => .error .intnZero
        | some i => .ok (some (formatDocId i), { st with doc_id := st.doc_id + 1 })
      else
        .ok (some (formatDocId (getMaxDoc st)),
             { doc_id := st.doc_id + 1, max_doc_id := getMaxDoc st + 1 })
    else if spec.IdMode = "uuid" then
      .ok (some d.uuid, st)
    else if spec.IdMode = "sequential" then
      .ok (some (formatDocId st.doc_id), { st with doc_id := st.doc_id + 1 })
    else
      .error .unsupportedIdMode
  else
    .ok (none, st)

/-- The tail of `GenerateDoc`: optional cluster key, then `_event_time`,
`_ts` and `generator_identifier`. -/
def finishDoc (spec : DocumentSpec) (d : Draws) (doc : Doc) : Except GenErr Doc :=
  let withCluster : Except GenErr Doc :=
    if spec.NumClusters > 0 then
      match getClusterKey spec.NumClusters spec.HotClusterPercentage d.hot d.cluster with
      | .error e => .error e
      | .ok ck => .ok (setKey doc "Cluster1" (.str ck))
    else
      .ok doc
  match withCluster with
  | .error e => .error e
  | .ok doc1 =>
    .ok (setKey (setKey (setKey doc1 "_event_time" DVal.time) "_ts" DVal.time)
          "generator_identifier" (DVal.str spec.GeneratorIdentifier))

/-- `GenerateDoc` of the source (mixed-mode version, lines 413-460). -/
def GenerateDoc (spec : DocumentSpec) (d : Draws) (st : GenState) :
    Except GenErr (Doc × GenState) :=
  match assignId spec d st with
  | .error e => .error e
  | .ok (oid, st1) =>
    let doc1 : Doc :=
      match oid with
      | some s => setKey payloadDoc "_id" (DVal.str s)
      | none => payloadDoc
    match finishDoc spec d doc1 with
    | .error e => .error e
    | .ok doc2 => .ok (doc2, st1)

/-- A run of consecutive `GenerateDoc` calls threading the package state,
one `Draws` record per call. -/
def generateDocsOn (spec : DocumentSpec) : List Draws → GenState →
    Except GenErr (List Doc × GenState)
  | [], st => .ok ([], st)
  | d :: ds, st =>
    match GenerateDoc spec d st with
    | .error e => .error e
    | .ok (doc, st1) =>
      match generateDocsOn spec ds st1 with
      | .error e => .error e
      | .ok (docs, st2) => .ok (doc :: docs, st2)

/-- `GenerateDocs` of the source: `spec.BatchSize` consecutive
`GenerateDoc` calls. -/
def GenerateDocs (spec : DocumentSpec) (ds : Nat → Draws) (st : GenState) :
    Except GenErr (List Doc × GenState) :=
  generateDocsOn spec ((List.range spec.BatchSize).map ds) st

/-- Outcome of the rejection-sampling loop of `genUniqueInRange`, run on a
finite supply of raw random draws: a completed sample, the `rand.Intn`
panic on an empty range, or a still-running loop that exhausted the
supplied draws. -/
inductive SampleResult where
  | ok : List Nat → SampleResult
  | panicked : SampleResult
  | outOfFuel : SampleResult
deriving DecidableEq

/-- The loop body of `genUniqueInRange`: while fewer than `count` distinct
ids are accumulated, draw `rand.Intn(limit)` and insert the result if new. -/
def genUniqueInRangeAux (limit count : Nat) : List Nat → List Nat → SampleResult
  | [], acc => if count ≤ acc.length then .ok acc else .outOfFuel
  | r :: rest, acc =>
    if count ≤ acc.length then .ok acc
    else
      match intn limit r with
      | none => .panicked
      | some id =>
        if id ∈ acc then genUniqueInRangeAux limit count rest acc
        else genUniqueInRangeAux limit count rest (acc ++ [id])

/-- `genUniqueInRange` of the source (lines 629-647): `count` distinct ids
drawn uniformly from `[0, limit)` by rejection sampling. -/
def genUniqueInRange (limit count : Nat) (draws : List Nat) : SampleResult :=
  genUniqueInRangeAux limit count draws []

/-- A single-field mutation descriptor, `map[string]interface{}` with keys
`op`, `path`, `value` in the source. -/
structure PatchOp where
  op : String
  path : String
  value : DVal
deriving DecidableEq

/-- The timestamp-touch operation appended to every patch. -/
def tsTouch : PatchOp :=
  { op := "add", path := "/_ts", value := DVal.time }

/-- A patch document: the map `{_id: ..., patch: [...]}` of the source. -/
structure Patch where
  _id : String
  patch : List PatchOp
deriving DecidableEq

/-- `generatePatch` of the source (lines 649-655). -/
def generatePatch (id : Nat) (field_patch : PatchOp) : Patch :=
  { _id := formatDocId id,
    patch := [field_patch, tsTouch] }

/-- The per-id assembly loop of `GeneratePatches`: each iteration receives
the next value from the template channel (modelled as the stream
`templates`, read at successive positions starting at `k`). -/
def assemblePatches (templates : Nat → PatchOp) : List Nat → Nat → List Patch
  | [], _ => []
  | id :: rest, k =>
    generatePatch id (templates k) :: assemblePatches templates rest (k + 1)

/-- Outcome of `GeneratePatches` under the fuelled sampler. -/
inductive PatchResult where
  | ok : List Patch → PatchResult
  | panicked : PatchResult
  | outOfFuel : PatchResult
deriving DecidableEq

/-- `GeneratePatches` of the source (lines 510-520): sample
`num_patch` distinct ids below `getMaxDoc` and pair each with one template
drawn from the channel.  The source's error return value is always `nil`. -/
def GeneratePatches (num_patch : Nat) (st : GenState) (draws : List Nat)
    (templates : Nat → PatchOp) : PatchResult :=
  match genUniqueInRange (getMaxDoc st) num_patch draws with
  | .ok ids => .ok (assemblePatches templates ids 0)
  | .panicked => .panicked
  | .outOfFuel => .outOfFuel

/-- Element swap on a list, the `swap` callback handed to `rand.Shuffle`. -/
def swapL (l : List α) (i j : Nat) : List α :=
  match l.get? i, l.get? j with
  | some a, some b => (l.set i b).set j a
  | _, _ => l

/-- Go's `rand.Shuffle` Fisher-Yates loop: for `i` from `n-1` down to `1`,
swap position `i` with position `rand.Intn(i+1)`.  `js i` is the raw draw
consumed at loop index `i`. -/
def shuffleAux (js : Nat → Nat) : Nat → List α → List α
  | 0, l => l
  | i + 1, l => shuffleAux js i (swapL l (i + 1) (js (i + 1) % (i + 2)))

/-- One `rand.Shuffle(len(options), ...)` call of `shuffleAndFillChannel`
(lines 657-665): shuffle the catalog, then emit it element by element. -/
def shuffleAndFillChannel (js : Nat → Nat) (options : List α) : List α :=
  shuffleAux js (options.length - 1) options

/-- The 2-template catalog built by each pass of `RandomFieldAdd`
(lines 522-539); the faker-generated path suffix and values of one pass are
abstract. -/
def addCatalog (p1 : String) (v1 v2 : DVal) : List PatchOp :=
  [{ op := "add", path := "/" ++ p1, value := v1 },
   { op := "add", path := "/Tags/-", value := v2 }]

/-- The 16-template catalog built by each pass of `RandomFieldReplace`
(lines 541-627); the freshly generated values of one pass are abstract. -/
def replaceCatalog (v : Nat → DVal) : List PatchOp :=
  [{ op := "replace", path := "/Email", value := v 0 },
   { op := "replace", path := "/About", value := v 1 },
   { op := "replace", path := "/Company", value := v 2 },
   { op := "replace", path := "/Name/First", value := v 3 },
   { op := "replace", path := "/Name/Last", value := v 4 },
   { op := "replace", path := "/Age", value := v 5 },
   { op := "replace", path := "/Balance", value := v 6 },
   { op := "replace", path := "/Registered", value := v 7 },
   { op := "replace", path := "/Phone", value := v 8 },
   { op := "replace", path := "/Picture", value := v 9 },
   { op := "replace", path := "/Guid", value := v 10 },
   { op := "replace", path := "/Greeting", value := v 11 },
   { op := "replace", path := "/Address/ZipCode", value := v 12 },
   { op := "replace", path := "/Address/Coordinates/Longitude", value := v 13 },
   { op := "replace", path := "/Address/Coordinates/Latitude", value := v 14 },
   { op := "replace", path := "/Address/City", value := v 15 }]

/-- The uniform-branch cluster keys `fmt.Sprintf("%d@gmail.com", i)` for
`i < n`, the image of the uniform branch of `getClusterKey`. -/
def uniformKeys (n : Nat) : List String :=
  (List.range n).map (fun i => decRepr i ++ "@gmail.com")

/-- The inner per-tick submission loop of `main.go` (lines 229-242): each of
the `wps` submitted units advances `docs_written` by `batchSize`. -/
def innerDispatch (batchSize : Nat) : Nat → Nat → Nat
  | 0, w => w
  | i + 1, w => innerDispatch batchSize i (w + batchSize)

/-- The loop guard of the dispatch loop (`main.go` line 222):
`numDocs < 0 || docs_written < numDocs`. -/
def budgetGuard (numDocs : Int) (docs_written : Nat) : Bool :=
  numDocs < 0 || (docs_written : Int) < numDocs

/-- The dispatch loop of `main.go` (lines 218-246) run for at most `fuel`
ticks: `some w` means the loop terminated on its own with final counter
`w`; `none` means it was still running after `fuel` ticks. -/
def dispatchRun (numDocs : Int) (wps batchSize : Nat) : Nat → Nat → Option Nat
  | 0, _ => none
  | fuel + 1, w =>
    if budgetGuard numDocs w then
      dispatchRun numDocs wps batchSize fuel (innerDispatch batchSize wps w)
    else
      some w

/-! ## Association-list lemmas for the document map -/

lemma keys_cons (k1 : String) (v1 : DVal) (rest : Doc) :
    keys ((k1, v1) :: rest) = k1 :: keys rest := rfl

lemma lookup_setKey_self (l : Doc) (k : String) (v : DVal) :
    List.lookup k (setKey l k v) = some v := by
  induction l with
  | nil => simp [setKey, List.lookup]
  | cons p rest ih =>
    obtain ⟨k1, v1⟩ := p
    by_cases h : k1 = k
    · simp [setKey, h, List.lookup]
    · have hf : (k == k1) = false := beq_eq_false_iff_ne.mpr (fun hk => h hk.symm)
      simp only [setKey, if_neg h, List.lookup, hf]
      exact ih

lemma lookup_setKey_ne (l : Doc) (k k1 : String) (v : DVal) (h : k ≠ k1) :
    List.lookup k (setKey l k1 v) = List.lookup k l := by
  have hf : (k == k1) = false := beq_eq_false_iff_ne.mpr h
  induction l with
  | nil => simp [setKey, List.lookup, hf]
  | cons p rest ih =>
    obtain ⟨k2, v2⟩ := p
    by_cases h2 : k2 = k1
    · subst h2
      simp [setKey, List.lookup, hf]
    · simp only [setKey, if_neg h2, List.lookup]
      cases hk2 : (k == k2) with
      | true => rfl
      | false => exact ih

lemma keys_setKey_notMem (l : Doc) (k : String) (v : DVal) (h : k ∉ keys l) :
    keys (setKey l k v) = keys l ++ [k] := by
  induction l with
  | nil => simp [setKey, keys]
  | cons p rest ih =>
    obtain ⟨k1, v1⟩ := p
    rw [keys_cons] at h
    have hne : k1 ≠ k := fun hk => h (hk ▸ List.mem_cons_self k1 (keys rest))
    have hrest : k ∉ keys rest := fun hm => h (List.mem_cons_of_mem k1 hm)
    simp only [setKey, if_neg hne, keys_cons, ih hrest, List.cons_append]

lemma lookup_none_of_not_mem_keys (l : Doc) (k : String) (h : k ∉ keys l) :
    List.lookup k l = none := by
  induction l with
  | nil => rfl
  | cons p rest ih =>
    obtain ⟨k1, v1⟩ := p
    rw [keys_cons] at h
    have h1 : k ≠ k1 := fun hk => h (hk ▸ List.mem_cons_self k1 (keys rest))
    have h2 : k ∉ keys rest := fun hm => h (List.mem_cons_of_mem k1 hm)
    have hf : (k == k1) = false := beq_eq_false_iff_ne.mpr h1
    simp [List.lookup, hf, ih h2]

/-! ## Decimal formatting lemmas -/

lemma ofDigits_replicate_zero (k : Nat) :
    Nat.ofDigits 10 (List.replicate k 0) = 0 := by
  induction k with
  | zero => simp [Nat.ofDigits]
  | succ n ih => simp [List.replicate, Nat.ofDigits, ih]

lemma ofDigits_docDigits (n : Nat) : Nat.ofDigits 10 (docDigits n) = n := by
  unfold docDigits
  rw [Nat.ofDigits_append, ofDigits_replicate_zero, Nat.ofDigits_digits]
  simp

lemma docDigits_lt (n : Nat) : ∀ x ∈ docDigits n, x < 10 := by
  intro x hx
  unfold docDigits at hx
  rcases List.mem_append.mp hx with h | h
  · exact Nat.digits_lt_base (by norm_num) h
  · have : x = 0 := List.eq_of_mem_replicate h
    omega

lemma decDigits_lt (n : Nat) : ∀ x ∈ decDigits n, x < 10 := by
  intro x hx
  unfold decDigits at hx
  by_cases h : n = 0
  · simp [h] at hx
    omega
  · simp only [if_neg h] at hx
    exact Nat.digits_lt_base (by norm_num) hx

lemma ofDigits_decDigits (n : Nat) : Nat.ofDigits 10 (decDigits n) = n := by
  unfold decDigits
  by_cases h : n = 0
  · simp [h, Nat.ofDigits]
  · simp [if_neg h, Nat.ofDigits_digits]

lemma map_dchar_inj : ∀ {l1 l2 : List Nat}, (∀ x ∈ l1, x < 10) → (∀ x ∈ l2, x < 10) →
    l1.map dchar = l2.map dchar → l1 = l2 := by
  intro l1
  induction l1 with
  | nil =>
    intro l2 _ _ h
    cases l2 with
    | nil => rfl
    | cons y ys => simp at h
  | cons x xs ih =>
    intro l2 h1 h2 h
    cases l2 with
    | nil => simp at h
    | cons y ys =>
      simp only [List.map_cons, List.cons.injEq] at h
      have hx : x < 10 := h1 x (by simp)
      have hy : y < 10 := h2 y (by simp)
      have hxy : x = y := by
        have key : ∀ a b : Fin 10, dchar a.val = dchar b.val → a = b := by decide
        have := key ⟨x, hx⟩ ⟨y, hy⟩ h.1
        exact congrArg Fin.val this
      have hxs : xs = ys :=
        ih (fun a ha => h1 a (by simp [ha])) (fun a ha => h2 a (by simp [ha])) h.2
      rw [hxy, hxs]

lemma formatDocId_inj {m n : Nat} (h : formatDocId m = formatDocId n) : m = n := by
  unfold formatDocId at h
  have hdata : (docDigits m).reverse.map dchar = (docDigits n).reverse.map dchar := by
    exact congrArg String.data h
  have hrev : (docDigits m).reverse = (docDigits n).reverse :=
    map_dchar_inj (fun x hx => docDigits_lt m x (List.mem_reverse.mp hx))
      (fun x hx => docDigits_lt n x (List.mem_reverse.mp hx)) hdata
  have hdd : docDigits m = docDigits n := List.reverse_injective hrev
  have := congrArg (Nat.ofDigits 10) hdd
  rwa [ofDigits_docDigits, ofDigits_docDigits] at this

lemma decRepr_inj {m n : Nat} (h : decRepr m = decRepr n) : m = n := by
  unfold decRepr at h
  have hdata : (decDigits m).reverse.map dchar = (decDigits n).reverse.map dchar :=
    congrArg String.data h
  have hrev : (decDigits m).reverse = (decDigits n).reverse :=
    map_dchar_inj (fun x hx => decDigits_lt m x (List.mem_reverse.mp hx))
      (fun x hx => decDigits_lt n x (List.mem_reverse.mp hx)) hdata
  have hdd : decDigits m = decDigits n := List.reverse_injective hrev
  have := congrArg (Nat.ofDigits 10) hdd
  rwa [ofDigits_decDigits, ofDigits_decDigits] at this

lemma digits_len_le_of_lt_pow {n k : Nat} (h : n < 10 ^ k) :
    (Nat.digits 10 n).length ≤ k := by
  by_cases hn : n = 0
  · simp [hn]
  · by_contra hgt
    push_neg at hgt
    have h1 : 10 ^ (Nat.digits 10 n).length ≤ 10 * n :=
      Nat.base_pow_length_digits_le 10 n (by norm_num) hn
    have h2 : 10 ^ (k + 1) ≤ 10 ^ (Nat.digits 10 n).length :=
      Nat.pow_le_pow_right (by norm_num) hgt
    have h3 : 10 ^ (k + 1) = 10 ^ k * 10 := pow_succ 10 k
    omega

lemma docDigits_length {n : Nat} (h : n < 10 ^ 24) : (docDigits n).length = 24 := by
  have hle : (Nat.digits 10 n).length ≤ 24 := digits_len_le_of_lt_pow h
  unfold docDigits
  rw [List.length_append, List.length_replicate]
  omega

lemma dchar_lt_dchar {a b : Nat} (ha : a < 10) (hb : b < 10) (hab : a < b) :
    dchar a < dchar b := by
  have key : ∀ x y : Fin 10, x < y → dchar x.val < dchar y.val := by decide
  exact key ⟨a, ha⟩ ⟨b, hb⟩ hab

lemma dchar_not_lt_self (a : Nat) : ¬ dchar a < dchar a :=
  lt_irrefl (dchar a)

lemma lexLt_of_val_lt : ∀ (a b : List Nat), a.length = b.length →
    (∀ x ∈ a, x < 10) → (∀ x ∈ b, x < 10) →
    Nat.ofDigits 10 a.reverse < Nat.ofDigits 10 b.reverse →
    List.lt (a.map dchar) (b.map dchar) := by
  intro a
  induction a with
  | nil =>
    intro b hlen _ _ hv
    cases b with
    | nil => simp [Nat.ofDigits_nil] at hv
    | cons y ys => simp at hlen
  | cons x xs ih =>
    intro b hlen h1 h2 hv
    cases b with
    | nil => simp at hlen
    | cons y ys =>
      have hlen2 : xs.length = ys.length := by simpa using hlen
      have hx : x < 10 := h1 x (by simp)
      have hy : y < 10 := h2 y (by simp)
      have hvx : Nat.ofDigits 10 (x :: xs).reverse
          = Nat.ofDigits 10 xs.reverse + 10 ^ xs.length * x := by
        rw [List.reverse_cons, Nat.ofDigits_append]
        simp [Nat.ofDigits_singleton]
      have hvy : Nat.ofDigits 10 (y :: ys).reverse
          = Nat.ofDigits 10 ys.reverse + 10 ^ ys.length * y := by
        rw [List.reverse_cons, Nat.ofDigits_append]
        simp [Nat.ofDigits_singleton]
      rw [hvx, hvy, ← hlen2] at hv
      have hva : Nat.ofDigits 10 xs.reverse < 10 ^ xs.length := by
        have := @Nat.ofDigits_lt_base_pow_length 10 xs.reverse
          (by norm_num) (fun d hd => h1 d (by simp [List.mem_reverse.mp hd]))
        simpa using this
      have hvb : Nat.ofDigits 10 ys.reverse < 10 ^ xs.length := by
        have := @Nat.ofDigits_lt_base_pow_length 10 ys.reverse
          (by norm_num) (fun d hd => h2 d (by simp [List.mem_reverse.mp hd]))
        simpa [hlen2] using this
      have hxy : x ≤ y := by
        by_contra hyx
        push_neg at hyx
        have h3 : Nat.ofDigits 10 ys.reverse + 10 ^ xs.length * y
            < 10 ^ xs.length * (y + 1) := by
          rw [Nat.mul_succ]
          omega
        have h4 : 10 ^ xs.length * (y + 1) ≤ 10 ^ xs.length * x :=
          Nat.mul_le_mul_left _ hyx
        have h5 : 10 ^ xs.length * x
            ≤ Nat.ofDigits 10 xs.reverse + 10 ^ xs.length * x :=
          Nat.le_add_left _ _
        omega
      rcases Nat.lt_or_ge x y with hlt | hge
      · exact List.lt.head _ _ (dchar_lt_dchar hx hy hlt)
      · have hxeq : x = y := le_antisymm hxy hge
        subst hxeq
        have hv2 : Nat.ofDigits 10 xs.reverse < Nat.ofDigits 10 ys.reverse := by
          omega
        exact List.lt.tail (dchar_not_lt_self x) (dchar_not_lt_self x)
          (ih ys hlen2 (fun d hd => h1 d (by simp [hd]))
            (fun d hd => h2 d (by simp [hd])) hv2)

lemma formatDocId_lt_of_lt {m n : Nat} (hmn : m < n) (hn : n < 10 ^ 24) :
    formatDocId m < formatDocId n := by
  rw [String.lt_iff_toList_lt]
  refine (List.lt_iff_lex_lt _ _).mp ?_
  have key : List.lt ((docDigits m).reverse.map dchar) ((docDigits n).reverse.map dchar) := by
    apply lexLt_of_val_lt
    · rw [List.length_reverse, List.length_reverse,
        docDigits_length (lt_trans hmn hn), docDigits_length hn]
    · exact fun x hx => docDigits_lt m x (List.mem_reverse.mp hx)
    · exact fun x hx => docDigits_lt n x (List.mem_reverse.mp hx)
    · rw [List.reverse_reverse, List.reverse_reverse,
        ofDigits_docDigits, ofDigits_docDigits]
      exact hmn
  exact key

lemma formatDocId_sorted {N : Nat} (hN : N ≤ 10 ^ 24) :
    ((List.range N).map formatDocId).Pairwise (· < ·) := by
  refine List.pairwise_map.mpr ?_
  refine (List.pairwise_lt_range N).imp_of_mem ?_
  intro a b _ hb hab
  exact formatDocId_lt_of_lt hab (lt_of_lt_of_le (List.mem_range.mp hb) hN)

lemma uniformKeys_nodup (n : Nat) : (uniformKeys n).Nodup := by
  unfold uniformKeys
  refine List.Nodup.map ?_ (List.nodup_range ..)
  intro a b hab
  have : (decRepr a).data ++ "@gmail.com".data = (decRepr b).data ++ "@gmail.com".data := by
    have := congrArg String.data hab
    simpa using this
  exact decRepr_inj (congrArg String.mk (List.append_cancel_right this))

/-! ## Dissection of `GenerateDoc` -/

lemma keys_payloadDoc : keys payloadDoc = payloadFields := rfl

lemma getClusterKey_hot {numClusters hot : Int} {dh dc : Nat}
    (h : 0 < hot ∧ ((dh % 100 : Nat) : Int) < hot) :
    getClusterKey numClusters hot dh dc = .ok "0@gmail.com" := by
  unfold getClusterKey
  rw [if_pos h]

lemma getClusterKey_uniform {numClusters hot : Int} {dh dc : Nat}
    (hn : 0 < numClusters) (h : ¬ (0 < hot ∧ ((dh % 100 : Nat) : Int) < hot)) :
    getClusterKey numClusters hot dh dc
      = .ok (decRepr (dc % numClusters.toNat) ++ "@gmail.com") := by
  have htn : numClusters.toNat ≠ 0 := by omega
  unfold getClusterKey
  rw [if_neg h]
  unfold intn
  rw [if_neg htn]

lemma getClusterKey_isOk {numClusters hot : Int} {dh dc : Nat}
    (hn : 0 < numClusters) :
    ∃ ck, getClusterKey numClusters hot dh dc = .ok ck := by
  by_cases h : 0 < hot ∧ ((dh % 100 : Nat) : Int) < hot
  · exact ⟨_, getClusterKey_hot h⟩
  · exact ⟨_, getClusterKey_uniform hn h⟩

lemma finishDoc_pos {spec : DocumentSpec} {d : Draws} {doc : Doc} {ck : String}
    (hn : 0 < spec.NumClusters)
    (hck : getClusterKey spec.NumClusters spec.HotClusterPercentage d.hot d.cluster
            = .ok ck) :
    finishDoc spec d doc
      = .ok (setKey (setKey (setKey (setKey doc "Cluster1" (DVal.str ck))
          "_event_time" DVal.time) "_ts" DVal.time)
          "generator_identifier" (DVal.str spec.GeneratorIdentifier)) := by
  unfold finishDoc
  rw [if_pos hn, hck]

lemma finishDoc_nonpos {spec : DocumentSpec} {d : Draws} {doc : Doc}
    (hn : ¬ 0 < spec.NumClusters) :
    finishDoc spec d doc
      = .ok (setKey (setKey (setKey doc "_event_time" DVal.time) "_ts" DVal.time)
          "generator_identifier" (DVal.str spec.GeneratorIdentifier)) := by
  unfold finishDoc
  rw [if_neg hn]

lemma lookup_finishTail (doc : Doc) (g : String) (k : String)
    (h1 : k ≠ "_event_time") (h2 : k ≠ "_ts") (h3 : k ≠ "generator_identifier") :
    List.lookup k (setKey (setKey (setKey doc "_event_time" DVal.time)
        "_ts" DVal.time) "generator_identifier" (DVal.str g))
      = List.lookup k doc := by
  rw [lookup_setKey_ne _ _ _ _ h3, lookup_setKey_ne _ _ _ _ h2,
    lookup_setKey_ne _ _ _ _ h1]

lemma finishDoc_isOk (spec : DocumentSpec) (d : Draws) (doc : Doc) :
    ∃ doc2, finishDoc spec d doc = .ok doc2 ∧
      List.lookup "_id" doc2 = List.lookup "_id" doc := by
  by_cases hn : 0 < spec.NumClusters
  · obtain ⟨ck, hck⟩ := @getClusterKey_isOk spec.NumClusters spec.HotClusterPercentage
      d.hot d.cluster hn
    refine ⟨_, finishDoc_pos hn hck, ?_⟩
    rw [lookup_finishTail _ _ _ (by decide) (by decide) (by decide),
      lookup_setKey_ne _ _ _ _ (by decide)]
  · refine ⟨_, finishDoc_nonpos hn, ?_⟩
    rw [lookup_finishTail _ _ _ (by decide) (by decide) (by decide)]

lemma assignId_seq {spec : DocumentSpec} {d : Draws} {st : GenState}
    (hdest : spec.Destination = "rockset") (hmode : spec.Mode ≠ "mixed")
    (hid : spec.IdMode = "sequential") :
    assignId spec d st
      = .ok (some (formatDocId st.doc_id), { st with doc_id := st.doc_id + 1 }) := by
  unfold assignId
  rw [if_pos hdest, if_neg hmode, hid,
    if_neg (show ¬ ("sequential" : String) = "uuid" by decide), if_pos rfl]

lemma assignId_uuid {spec : DocumentSpec} {d : Draws} {st : GenState}
    (hdest : spec.Destination = "rockset") (hmode : spec.Mode ≠ "mixed")
    (hid : spec.IdMode = "uuid") :
    assignId spec d st = .ok (some d.uuid, st) := by
  unfold assignId
  rw [if_pos hdest, if_neg hmode, hid, if_pos rfl]

lemma assignId_nonrockset {spec : DocumentSpec} {d : Draws} {st : GenState}
    (hdest : spec.Destination ≠ "rockset") :
    assignId spec d st = .ok (none, st) := by
  unfold assignId
  rw [if_neg hdest]

lemma assignId_mixed_update {spec : DocumentSpec} {d : Draws} {st : GenState}
    (hdest : spec.Destination = "rockset") (hmode : spec.Mode = "mixed")
    (hbr : ((d.branch % 100 : Nat) : Int) < spec.UpdatePercentage)
    (hmax : 0 < st.max_doc_id) :
    assignId spec d st
      = .ok (some (formatDocId (d.updateId % st.max_doc_id)),
             { st with doc_id := st.doc_id + 1 }) := by
  have hmz : st.max_doc_id ≠ 0 := Nat.pos_iff_ne_zero.mp hmax
  unfold assignId
  rw [if_pos hdest, if_pos hmode, if_pos hbr]
  unfold getMaxDoc intn
  rw [if_neg hmz]

lemma assignId_mixed_update_panic {spec : DocumentSpec} {d : Draws} {st : GenState}
    (hdest : spec.Destination = "rockset") (hmode : spec.Mode = "mixed")
    (hbr : ((d.branch % 100 : Nat) : Int) < spec.UpdatePercentage)
    (hmax : st.max_doc_id = 0) :
    assignId spec d st = .error .intnZero := by
  unfold assignId
  rw [if_pos hdest, if_pos hmode, if_pos hbr]
  unfold getMaxDoc intn
  rw [if_pos hmax]

lemma assignId_mixed_insert {spec : DocumentSpec} {d : Draws} {st : GenState}
    (hdest : spec.Destination = "rockset") (hmode : spec.Mode = "mixed")
    (hbr : ¬ ((d.branch % 100 : Nat) : Int) < spec.UpdatePercentage) :
    assignId spec d st
      = .ok (some (formatDocId st.max_doc_id),
             ⟨st.doc_id + 1, st.max_doc_id + 1⟩) := by
  unfold assignId
  rw [if_pos hdest, if_pos hmode, if_neg hbr]
  rfl

lemma assignId_state_cases {spec : DocumentSpec} {d : Draws} {st st' : GenState}
    {oid : Option String} (h : assignId spec d st = .ok (oid, st')) :
    st' = st ∨ st' = { st with doc_id := st.doc_id + 1 } ∨
      (st' = ⟨st.doc_id + 1, st.max_doc_id + 1⟩ ∧ spec.Destination = "rockset" ∧
        spec.Mode = "mixed" ∧
        ¬ ((d.branch % 100 : Nat) : Int) < spec.UpdatePercentage) := by
  by_cases hdest : spec.Destination = "rockset"
  · by_cases hmode : spec.Mode = "mixed"
    · by_cases hbr : ((d.branch % 100 : Nat) : Int) < spec.UpdatePercentage
      · by_cases hmax : 0 < st.max_doc_id
        · rw [assignId_mixed_update hdest hmode hbr hmax] at h
          have := (Except.ok.injEq _ _).mp h
          right; left
          exact (Prod.mk.injEq .. |>.mp this).2.symm
        · have hmz : st.max_doc_id = 0 := by omega
          rw [assignId_mixed_update_panic hdest hmode hbr hmz] at h
          cases h
      · rw [assignId_mixed_insert hdest hmode hbr] at h
        have := (Except.ok.injEq _ _).mp h
        right; right
        exact ⟨(Prod.mk.injEq .. |>.mp this).2.symm, hdest, hmode, hbr⟩
    · by_cases hid : spec.IdMode = "uuid"
      · rw [assignId_uuid hdest hmode hid] at h
        have := (Except.ok.injEq _ _).mp h
        left
        exact (Prod.mk.injEq .. |>.mp this).2.symm
      · by_cases hid2 : spec.IdMode = "sequential"
        · rw [assignId_seq hdest hmode hid2] at h
          have := (Except.ok.injEq _ _).mp h
          right; left
          exact (Prod.mk.injEq .. |>.mp this).2.symm
        · unfold assignId at h
          rw [if_pos hdest, if_neg hmode, if_neg hid, if_neg hid2] at h
          cases h
  · rw [assignId_nonrockset hdest] at h
    have := (Except.ok.injEq _ _).mp h
    left
    exact (Prod.mk.injEq .. |>.mp this).2.symm

lemma GenerateDoc_of_assignId {spec : DocumentSpec} {d : Draws} {st st1 : GenState}
    {oid : Option String} (h : assignId spec d st = .ok (oid, st1)) :
    ∃ doc2, GenerateDoc spec d st = .ok (doc2, st1) ∧
      List.lookup "_id" doc2
        = (match oid with
           | some s => some (DVal.str s)
           | none => none) := by
  cases oid with
  | some s =>
    obtain ⟨doc2, hfin, hlook⟩ := finishDoc_isOk spec d
      (setKey payloadDoc "_id" (DVal.str s))
    refine ⟨doc2, ?_, ?_⟩
    · unfold GenerateDoc
      rw [h]
      simp only
      rw [hfin]
    · rw [hlook]
      exact lookup_setKey_self _ _ _
  | none =>
    obtain ⟨doc2, hfin, hlook⟩ := finishDoc_isOk spec d payloadDoc
    refine ⟨doc2, ?_, ?_⟩
    · unfold GenerateDoc
      rw [h]
      simp only
      rw [hfin]
    · rw [hlook]
      exact lookup_none_of_not_mem_keys _ _ (by rw [keys_payloadDoc]; decide)

lemma GenerateDoc_state {spec : DocumentSpec} {d : Draws} {st st' : GenState}
    {doc : Doc} (h : GenerateDoc spec d st = .ok (doc, st')) :
    ∃ oid, assignId spec d st = .ok (oid, st') := by
  unfold GenerateDoc at h
  cases ha : assignId spec d st with
  | error e => rw [ha] at h; cases h
  | ok p =>
    obtain ⟨oid, st1⟩ := p
    rw [ha] at h
    simp only at h
    cases oid with
    | some s =>
      cases hf : finishDoc spec d (setKey payloadDoc "_id" (DVal.str s)) with
      | error e => rw [hf] at h; cases h
      | ok doc2 =>
        rw [hf] at h
        have hpair := (Except.ok.injEq _ _).mp h
        injection hpair with h1 h2
        subst h2
        exact ⟨some s, rfl⟩
    | none =>
      cases hf : finishDoc spec d payloadDoc with
      | error e => rw [hf] at h; cases h
      | ok doc2 =>
        rw [hf] at h
        have hpair := (Except.ok.injEq _ _).mp h
        injection hpair with h1 h2
        subst h2
        exact ⟨none, rfl⟩

lemma GenerateDoc_error {spec : DocumentSpec} {d : Draws} {st : GenState}
    {e : GenErr} (h : assignId spec d st = .error e) :
    GenerateDoc spec d st = .error e := by
  unfold GenerateDoc
  rw [h]

/-! ## Rejection-sampling lemmas -/

lemma genUniqueInRangeAux_ok {limit count : Nat} :
    ∀ (draws acc ids : List Nat), acc.Nodup → (∀ x ∈ acc, x < limit) →
      acc.length ≤ count →
      genUniqueInRangeAux limit count draws acc = .ok ids →
      ids.Nodup ∧ (∀ x ∈ ids, x < limit) ∧ ids.length = count := by
  intro draws
  induction draws with
  | nil =>
    intro acc ids hnd hlt hle h
    unfold genUniqueInRangeAux at h
    by_cases hc : count ≤ acc.length
    · rw [if_pos hc] at h
      injection h with h1
      subst h1
      exact ⟨hnd, hlt, le_antisymm hle hc⟩
    · rw [if_neg hc] at h
      cases h
  | cons r rest ih =>
    intro acc ids hnd hlt hle h
    unfold genUniqueInRangeAux at h
    by_cases hc : count ≤ acc.length
    · rw [if_pos hc] at h
      injection h with h1
      subst h1
      exact ⟨hnd, hlt, le_antisymm hle hc⟩
    · rw [if_neg hc] at h
      by_cases hl : limit = 0
      · unfold intn at h
        rw [if_pos hl] at h
        cases h
      · unfold intn at h
        rw [if_neg hl] at h
        simp only at h
        by_cases hmem : r % limit ∈ acc
        · rw [if_pos hmem] at h
          exact ih acc ids hnd hlt hle h
        · rw [if_neg hmem] at h
          refine ih (acc ++ [r % limit]) ids ?_ ?_ ?_ h
          · rw [List.nodup_append]
            exact ⟨hnd, List.nodup_singleton _,
              fun x hx hx1 => hmem ((List.mem_singleton.mp hx1) ▸ hx)⟩
          · intro x hx
            rcases List.mem_append.mp hx with hx1 | hx1
            · exact hlt x hx1
            · rw [List.mem_singleton.mp hx1]
              exact Nat.mod_lt r (Nat.pos_of_ne_zero hl)
          · rw [List.length_append, List.length_singleton]
            omega

lemma genUniqueInRangeAux_success {limit count : Nat} :
    ∀ (draws acc : List Nat), (acc ++ draws).Nodup → (∀ x ∈ draws, x < limit) →
      acc.length + draws.length = count →
      genUniqueInRangeAux limit count draws acc = .ok (acc ++ draws) := by
  intro draws
  induction draws with
  | nil =>
    intro acc hnd _ hlen
    unfold genUniqueInRangeAux
    simp only [List.length_nil, Nat.add_zero] at hlen
    rw [if_pos (le_of_eq hlen.symm)]
    simp
  | cons r rest ih =>
    intro acc hnd hlt hlen
    unfold genUniqueInRangeAux
    simp only [List.length_cons] at hlen
    rw [if_neg (by omega)]
    have hrlt : r < limit := hlt r (by simp)
    have hl : limit ≠ 0 := by omega
    unfold intn
    rw [if_neg hl]
    simp only
    rw [Nat.mod_eq_of_lt hrlt]
    have hdisj := List.disjoint_of_nodup_append hnd
    have hmem : r ∉ acc := fun hmm => hdisj hmm (by simp)
    rw [if_neg hmem]
    have hassoc : acc ++ r :: rest = (acc ++ [r]) ++ rest := by simp
    rw [hassoc] at hnd ⊢
    refine ih (acc ++ [r]) hnd (fun x hx => hlt x (by simp [hx])) ?_
    rw [List.length_append, List.length_singleton]
    omega

lemma genUniqueInRangeAux_stuck {limit count : Nat} (hl : 0 < limit)
    (hc : limit < count) :
    ∀ (draws acc : List Nat), acc.Nodup → (∀ x ∈ acc, x < limit) →
      genUniqueInRangeAux limit count draws acc = .outOfFuel := by
  intro draws
  induction draws with
  | nil =>
    intro acc hnd hlt
    unfold genUniqueInRangeAux
    have hsub : acc ⊆ List.range limit := fun x hx => List.mem_range.mpr (hlt x hx)
    have hlen : acc.length ≤ limit := by
      have := (hnd.subperm hsub).length_le
      simpa using this
    rw [if_neg (by omega)]
  | cons r rest ih =>
    intro acc hnd hlt
    unfold genUniqueInRangeAux
    have hsub : acc ⊆ List.range limit := fun x hx => List.mem_range.mpr (hlt x hx)
    have hlen : acc.length ≤ limit := by
      have := (hnd.subperm hsub).length_le
      simpa using this
    rw [if_neg (by omega)]
    unfold intn
    rw [if_neg (by omega)]
    simp only
    by_cases hmem : r % limit ∈ acc
    · rw [if_pos hmem]
      exact ih acc hnd hlt
    · rw [if_neg hmem]
      refine ih (acc ++ [r % limit]) ?_ ?_
      · rw [List.nodup_append]
        exact ⟨hnd, List.nodup_singleton _,
          fun x hx hx1 => hmem ((List.mem_singleton.mp hx1) ▸ hx)⟩
      · intro x hx
        rcases List.mem_append.mp hx with hx1 | hx1
        · exact hlt x hx1
        · rw [List.mem_singleton.mp hx1]
          exact Nat.mod_lt r hl

/-! ## Fisher-Yates permutation lemmas -/

lemma cons_set_perm : ∀ (l : List α) (j : Nat) (a b : α), l.get? j = some b →
    List.Perm (b :: l.set j a) (a :: l) := by
  intro l
  induction l with
  | nil =>
    intro j a b h
    simp [List.get?] at h
  | cons c t ih =>
    intro j a b h
    cases j with
    | zero =>
      simp only [List.get?] at h
      injection h with h1
      subst h1
      simp only [List.set]
      exact List.Perm.swap a c t
    | succ j =>
      simp only [List.get?] at h
      simp only [List.set]
      exact (List.Perm.swap c b _).trans
        (((ih j a b h).cons c).trans (List.Perm.swap a c t))

lemma swapL_perm (l : List α) (i j : Nat) : List.Perm (swapL l i j) l := by
  unfold swapL
  cases hi : l.get? i with
  | none => exact List.Perm.refl l
  | some a =>
    cases hj : l.get? j with
    | none => exact List.Perm.refl l
    | some b =>
      simp only
      have hilen : i < l.length := by
        rw [List.get?_eq_getElem?] at hi
        exact (List.getElem?_eq_some_iff.mp hi).1
      have hj2 : (l.set i b).get? j = some b := by
        by_cases hij : i = j
        · subst hij
          rw [List.get?_eq_getElem?, List.getElem?_set_self hilen]
        · rw [List.get?_eq_getElem?, List.getElem?_set_ne hij,
            ← List.get?_eq_getElem?]
          exact hj
      have h1 : List.Perm (b :: (l.set i b).set j a) (a :: l.set i b) :=
        cons_set_perm _ j a b hj2
      have h2 : List.Perm (a :: l.set i b) (b :: l) := cons_set_perm _ i b a hi
      exact (h1.trans h2).cons_inv

lemma shuffleAux_perm (js : Nat → Nat) :
    ∀ (i : Nat) (l : List α), List.Perm (shuffleAux js i l) l := by
  intro i
  induction i with
  | zero => intro l; exact List.Perm.refl l
  | succ i ih =>
    intro l
    unfold shuffleAux
    exact (ih _).trans (swapL_perm ..)

lemma shuffleAndFillChannel_perm (js : Nat → Nat) (options : List α) :
    List.Perm (shuffleAndFillChannel js options) options :=
  shuffleAux_perm js _ options

/-! ## Sequential-run lemma -/

lemma generateDocsOn_seq {spec : DocumentSpec}
    (hdest : spec.Destination = "rockset") (hmode : spec.Mode ≠ "mixed")
    (hid : spec.IdMode = "sequential") :
    ∀ (ds : List Draws) (c b : Nat),
      ∃ docs, generateDocsOn spec ds ⟨c, b⟩ = .ok (docs, ⟨c + ds.length, b⟩) ∧
        docs.map (List.lookup "_id")
          = (List.range ds.length).map
              (fun k => some (DVal.str (formatDocId (c + k)))) := by
  intro ds
  induction ds with
  | nil =>
    intro c b
    exact ⟨[], by simp [generateDocsOn], by simp⟩
  | cons d rest ih =>
    intro c b
    obtain ⟨doc, hdoc, hlook⟩ :=
      GenerateDoc_of_assignId (@assignId_seq spec d ⟨c, b⟩ hdest hmode hid)
    obtain ⟨docs, hdocs, hlooks⟩ := ih (c + 1) b
    refine ⟨doc :: docs, ?_, ?_⟩
    · unfold generateDocsOn
      rw [hdoc]
      simp only
      rw [show (⟨c, b⟩ : GenState).doc_id + 1 = c + 1 from rfl] at hdocs ⊢
      rw [hdocs]
      simp only [List.length_cons]
      rw [show c + 1 + rest.length = c + (rest.length + 1) by omega]
    · simp only [List.map_cons, List.length_cons, hlook, hlooks,
        List.range_succ_eq_map, List.map_map]
      refine congrArg₂ List.cons rfl ?_
      refine List.map_congr_left ?_
      intro k _
      simp only [Function.comp]
      rw [show c + 1 + k = c + (k + 1) by omega]

/-! ## Remaining helper lemmas -/

lemma formatDocId_length {n : Nat} (h : n < 10 ^ 24) : (formatDocId n).length = 24 := by
  unfold formatDocId
  show ((docDigits n).reverse.map dchar).length = 24
  rw [List.length_map, List.length_reverse, docDigits_length h]

lemma uniformKeys_length (n : Nat) : (uniformKeys n).length = n := by
  simp [uniformKeys]

lemma innerDispatch_eq (batchSize : Nat) :
    ∀ (i w : Nat), innerDispatch batchSize i w = w + i * batchSize := by
  intro i
  induction i with
  | zero => intro w; simp [innerDispatch]
  | succ i ih =>
    intro w
    unfold innerDispatch
    rw [ih]
    ring

lemma assemblePatches_mem {templates : Nat → PatchOp} :
    ∀ (ids : List Nat) (k : Nat) (p : Patch),
      p ∈ assemblePatches templates ids k →
      ∃ id j, p = generatePatch id (templates j) := by
  intro ids
  induction ids with
  | nil =>
    intro k p hp
    simp [assemblePatches] at hp
  | cons id rest ih =>
    intro k p hp
    unfold assemblePatches at hp
    rcases List.mem_cons.mp hp with h1 | h1
    · exact ⟨id, k, h1⟩
    · exact ih (k + 1) p h1

lemma lookup_cluster_base_none (oid : Option String) :
    List.lookup "Cluster1"
      (match oid with
       | some s => setKey payloadDoc "_id" (DVal.str s)
       | none => payloadDoc) = none := by
  cases oid with
  | some s =>
    apply lookup_none_of_not_mem_keys
    rw [keys_setKey_notMem _ _ _ (by rw [keys_payloadDoc]; decide),
      keys_payloadDoc]
    decide
  | none =>
    apply lookup_none_of_not_mem_keys
    rw [keys_payloadDoc]
    decide

lemma finishDoc_cluster (spec : DocumentSpec) (d : Draws) (doc : Doc)
    (hbase : List.lookup "Cluster1" doc = none) :
    ∃ doc2, finishDoc spec d doc = .ok doc2 ∧
      (0 < spec.NumClusters →
        ∃ ck, getClusterKey spec.NumClusters spec.HotClusterPercentage
                d.hot d.cluster = .ok ck ∧
          List.lookup "Cluster1" doc2 = some (DVal.str ck)) ∧
      (¬ 0 < spec.NumClusters → List.lookup "Cluster1" doc2 = none) := by
  by_cases hn : 0 < spec.NumClusters
  · obtain ⟨ck, hck⟩ := @getClusterKey_isOk spec.NumClusters spec.HotClusterPercentage
      d.hot d.cluster hn
    refine ⟨_, finishDoc_pos hn hck, fun _ => ⟨ck, hck, ?_⟩, fun hc => absurd hn hc⟩
    rw [lookup_finishTail _ _ _ (by decide) (by decide) (by decide)]
    exact lookup_setKey_self _ _ _
  · refine ⟨_, finishDoc_nonpos hn, fun hc => absurd hc hn, fun _ => ?_⟩
    rw [lookup_finishTail _ _ _ (by decide) (by decide) (by decide)]
    exact hbase

lemma GenerateDoc_cluster_of_assignId {spec : DocumentSpec} {d : Draws}
    {st st1 : GenState} {oid : Option String}
    (h : assignId spec d st = .ok (oid, st1)) :
    ∃ doc2, GenerateDoc spec d st = .ok (doc2, st1) ∧
      (0 < spec.NumClusters →
        ∃ ck, getClusterKey spec.NumClusters spec.HotClusterPercentage
                d.hot d.cluster = .ok ck ∧
          List.lookup "Cluster1" doc2 = some (DVal.str ck)) ∧
      (¬ 0 < spec.NumClusters → List.lookup "Cluster1" doc2 = none) := by
  cases oid with
  | some s =>
    obtain ⟨doc2, hfin, hpos, hneg⟩ := finishDoc_cluster spec d
      (setKey payloadDoc "_id" (DVal.str s)) (lookup_cluster_base_none (some s))
    refine ⟨doc2, ?_, hpos, hneg⟩
    unfold GenerateDoc
    rw [h]
    simp only
    rw [hfin]
  | none =>
    obtain ⟨doc2, hfin, hpos, hneg⟩ := finishDoc_cluster spec d
      payloadDoc (lookup_cluster_base_none none)
    refine ⟨doc2, ?_, hpos, hneg⟩
    unfold GenerateDoc
    rw [h]
    simp only
    rw [hfin]

/-! ## Claim theorems -/

/-- C3: with destination "rockset", a non-mixed run mode and sequential id
mode, N consecutive single-threaded generation calls starting from a fresh
counter assign `_id` values that are exactly the 24-digit zero-padded
decimal representations of 0, 1, ..., N-1, in that order, pairwise
distinct and strictly increasing as strings. -/
theorem C3_sequential_ids (spec : DocumentSpec) (ds : List Draws) (b : Nat)
    (hdest : spec.Destination = "rockset") (hmode : spec.Mode ≠ "mixed")
    (hid : spec.IdMode = "sequential") (hN : ds.length ≤ 10 ^ 24) :
    ∃ docs, generateDocsOn spec ds ⟨0, b⟩ = .ok (docs, ⟨ds.length, b⟩) ∧
      docs.map (List.lookup "_id")
        = (List.range ds.length).map (fun k => some (DVal.str (formatDocId k))) ∧
      ((List.range ds.length).map formatDocId).Pairwise (· < ·) ∧
      ((List.range ds.length).map formatDocId).Nodup ∧
      (∀ k, k < ds.length → (formatDocId k).length = 24) := by
  obtain ⟨docs, hrun, hmap⟩ := generateDocsOn_seq hdest hmode hid ds 0 b
  refine ⟨docs, by simpa using hrun, by simpa using hmap,
    formatDocId_sorted hN, ?_, ?_⟩
  · exact (formatDocId_sorted hN).imp (fun h => ne_of_lt h)
  · intro k hk
    exact formatDocId_length (lt_of_lt_of_le hk hN)

/-- Witness for C3: the end-to-end instance of the claim; two sequential
batches of size 3 starting fresh produce ids 0,1,2,3,4,5 with no
duplicates and no gaps. -/
theorem C3_witness :
    (match generateDocsOn ⟨"rockset", "g", 3, "add", "sequential", -1, -1, -1⟩
        (List.replicate 6 ⟨0, 0, 0, 0, "u"⟩) ⟨0, 0⟩ with
     | .ok (docs, st) =>
        docs.map (List.lookup "_id")
          = (List.range 6).map (fun k => some (DVal.str (formatDocId k)))
        ∧ st = ⟨6, 0⟩
     | .error _ => False) := by
  obtain ⟨docs, hrun, hmap, hpw, hnd, hlen⟩ :=
    C3_sequential_ids ⟨"rockset", "g", 3, "add", "sequential", -1, -1, -1⟩
      (List.replicate 6 ⟨0, 0, 0, 0, "u"⟩) 0 rfl (by decide) rfl
      (by rw [List.length_replicate]; norm_num)
  rw [hrun]
  exact ⟨hmap, rfl⟩

/-- C4: every patch produced by the assembler is a map
`{_id: formatted id, patch: [content mutation, {op: add, path: /_ts,
value: now}]}`: its patch list is exactly one template-stream mutation
followed by exactly one `/_ts` timestamp-touch add operation. -/
theorem C4_patch_shape (num : Nat) (st : GenState) (draws : List Nat)
    (templates : Nat → PatchOp) (ps : List Patch)
    (h : GeneratePatches num st draws templates = .ok ps) :
    ∀ p ∈ ps, ∃ id j, p = generatePatch id (templates j) ∧
      p._id = formatDocId id ∧
      p.patch = [templates j, { op := "add", path := "/_ts", value := DVal.time }] := by
  intro p hp
  unfold GeneratePatches at h
  cases hs : genUniqueInRange (getMaxDoc st) num draws with
  | ok ids =>
    rw [hs] at h
    injection h with h1
    subst h1
    obtain ⟨id, j, hpj⟩ := assemblePatches_mem ids 0 p hp
    exact ⟨id, j, hpj, by rw [hpj]; rfl, by rw [hpj]; rfl⟩
  | panicked => rw [hs] at h; cases h
  | outOfFuel => rw [hs] at h; cases h

/-- Witness for C4 at a concrete input: two patches assembled against
bound 3, each carrying its template plus the `/_ts` touch. -/
theorem C4_witness :
    GeneratePatches 2 ⟨0, 3⟩ [0, 1, 2]
        (fun _ => ⟨"replace", "/Email", DVal.payload⟩)
      = .ok [generatePatch 0 ⟨"replace", "/Email", DVal.payload⟩,
             generatePatch 1 ⟨"replace", "/Email", DVal.payload⟩] ∧
    (generatePatch 0 ⟨"replace", "/Email", DVal.payload⟩).patch
      = [⟨"replace", "/Email", DVal.payload⟩,
         { op := "add", path := "/_ts", value := DVal.time }] := by
  have hs : genUniqueInRange (getMaxDoc ⟨0, 3⟩) 2 [0, 1, 2] = .ok [0, 1] := by decide
  have hrun : GeneratePatches 2 ⟨0, 3⟩ [0, 1, 2]
      (fun _ => ⟨"replace", "/Email", DVal.payload⟩)
    = .ok [generatePatch 0 ⟨"replace", "/Email", DVal.payload⟩,
           generatePatch 1 ⟨"replace", "/Email", DVal.payload⟩] := by
    unfold GeneratePatches
    rw [hs]
    rfl
  obtain ⟨id, j, hpj, hid, hpatch⟩ :=
    C4_patch_shape 2 ⟨0, 3⟩ [0, 1, 2] (fun _ => ⟨"replace", "/Email", DVal.payload⟩)
      _ hrun (generatePatch 0 ⟨"replace", "/Email", DVal.payload⟩) (by simp)
  exact ⟨hrun, hpatch⟩

/-- C5: the unique-id rejection sampler, whenever it completes, returns
exactly `count` pairwise-distinct integers, each in `[0, limit)`; and for
`count ≤ limit` a completing draw sequence exists. -/
theorem C5_unique_sampling (limit count : Nat) (hlim : 0 < limit)
    (hcount : count ≤ limit) :
    (∀ draws ids, genUniqueInRange limit count draws = .ok ids →
      ids.length = count ∧ ids.Nodup ∧ ∀ x ∈ ids, x < limit) ∧
    genUniqueInRange limit count (List.range count) = .ok (List.range count) := by
  constructor
  · intro draws ids h
    have hh := genUniqueInRangeAux_ok draws [] ids (by simp) (by simp) (by simp) h
    exact ⟨hh.2.2, hh.1, hh.2.1⟩
  · have hh := @genUniqueInRangeAux_success limit count
      (List.range count) [] (by simpa using List.nodup_range count)
      (fun x hx => lt_of_lt_of_le (List.mem_range.mp hx) hcount) (by simp)
    simpa [genUniqueInRange] using hh

/-- Witness for C5: `limit = 100`, `count = 30` completes on an explicit
draw sequence, yielding exactly the 30 distinct integers `0..29`. -/
theorem C5_witness :
    genUniqueInRange 100 30 (List.range 30) = .ok (List.range 30) ∧
    (List.range 30).length = 30 := by
  exact ⟨(C5_unique_sampling 100 30 (by decide) (by decide)).2, by decide⟩

/-- C6 counterexample: with bound 1 and requested count 2, the sampler is
still running (no error, no output) after consuming 40 draws — patch
assembly does not fail with an error on an insufficient id range; it loops. -/
theorem C6_counterexample :
    genUniqueInRange 1 2 (List.range 40) = .outOfFuel ∧
    GeneratePatches 2 ⟨0, 1⟩ (List.range 40)
        (fun _ => ⟨"replace", "/Email", DVal.payload⟩)
      = .outOfFuel := by decide

/-- C6 (amended): `GeneratePatches count` requires `count ≤ Bound()`; with
`Bound() = 0` and positive count it panics in `rand.Intn` on the first
draw; with `0 < Bound() < count` it never completes for any finite draw
supply (the rejection loop cannot collect `count` distinct ids); in
neither case is an error value produced. -/
theorem C6_patch_failure (st : GenState) (count : Nat) (draws : List Nat)
    (templates : Nat → PatchOp) (hne : draws ≠ []) :
    (getMaxDoc st = 0 → 0 < count →
      GeneratePatches count st draws templates = .panicked) ∧
    (0 < getMaxDoc st → getMaxDoc st < count →
      GeneratePatches count st draws templates = .outOfFuel) := by
  constructor
  · intro hmax hcount
    cases draws with
    | nil => exact absurd rfl hne
    | cons r rest =>
      unfold GeneratePatches
      have hs : genUniqueInRange (getMaxDoc st) count (r :: rest) = .panicked := by
        rw [hmax]
        unfold genUniqueInRange genUniqueInRangeAux
        rw [if_neg (by simp only [List.length_nil]; omega)]
        unfold intn
        rw [if_pos rfl]
      rw [hs]
  · intro hpos hcount
    unfold GeneratePatches genUniqueInRange
    rw [genUniqueInRangeAux_stuck hpos hcount draws [] (by simp) (by simp)]

/-- Witness for C6 (amended): the panic and the stall at concrete inputs. -/
theorem C6_witness :
    GeneratePatches 1 ⟨0, 0⟩ [7] (fun _ => ⟨"replace", "/Email", DVal.payload⟩)
      = .panicked ∧
    GeneratePatches 2 ⟨0, 1⟩ [7] (fun _ => ⟨"replace", "/Email", DVal.payload⟩)
      = .outOfFuel := by
  refine ⟨?_, ?_⟩
  · exact (C6_patch_failure ⟨0, 0⟩ 1 [7] (fun _ => ⟨"replace", "/Email", DVal.payload⟩)
      (by decide)).1 rfl (by decide)
  · exact (C6_patch_failure ⟨0, 1⟩ 2 [7] (fun _ => ⟨"replace", "/Email", DVal.payload⟩)
      (by decide)).2 (by decide) (by decide)

/-- C1 counterexample: mixed mode with `updatePercentage = 100` and
`Bound() = 0` does not fall back to the insert branch: the update branch is
taken and `rand.Intn(0)` panics, so generation does not succeed. -/
theorem C1_counterexample :
    GenerateDoc ⟨"rockset", "g", 1, "mixed", "sequential", 100, -1, -1⟩
      ⟨0, 0, 0, 0, "u"⟩ ⟨0, 0⟩ = .error .intnZero := by
  exact GenerateDoc_error (assignId_mixed_update_panic rfl rfl (by decide) rfl)

/-- C1 (amended): in mixed mode with `Bound() = 0`, generation succeeds
via the insert branch (assigning id 0 and advancing the bound to 1) only
when the random draw selects the insert branch
(`draw % 100 >= updatePercentage`); when the draw selects the update
branch it panics sampling the empty range — in particular with
`updatePercentage = 100` every draw panics. -/
theorem C1_mixed_zero_bound (spec : DocumentSpec) (d : Draws) (st : GenState)
    (hdest : spec.Destination = "rockset") (hmode : spec.Mode = "mixed")
    (hmax : st.max_doc_id = 0) :
    (((d.branch % 100 : Nat) : Int) < spec.UpdatePercentage →
      GenerateDoc spec d st = .error .intnZero) ∧
    (¬ ((d.branch % 100 : Nat) : Int) < spec.UpdatePercentage →
      ∃ doc, GenerateDoc spec d st = .ok (doc, ⟨st.doc_id + 1, 1⟩) ∧
        List.lookup "_id" doc = some (DVal.str (formatDocId 0))) := by
  constructor
  · intro hbr
    exact GenerateDoc_error (assignId_mixed_update_panic hdest hmode hbr hmax)
  · intro hbr
    have ha := @assignId_mixed_insert spec d st hdest hmode hbr
    rw [hmax] at ha
    obtain ⟨doc, hdoc, hlook⟩ := GenerateDoc_of_assignId ha
    exact ⟨doc, hdoc, hlook⟩

/-- Witness for C1 (amended): with `updatePercentage = 100` the panic
branch fires; with `updatePercentage = 0` the insert fallback succeeds,
assigns id 0 and sets the bound to 1. -/
theorem C1_witness :
    GenerateDoc ⟨"rockset", "g", 1, "mixed", "sequential", 100, -1, -1⟩
      ⟨5, 0, 0, 0, "u"⟩ ⟨0, 0⟩ = .error .intnZero ∧
    (match GenerateDoc ⟨"rockset", "g", 1, "mixed", "sequential", 0, -1, -1⟩
        ⟨5, 0, 0, 0, "u"⟩ ⟨0, 0⟩ with
     | .ok (doc, st) =>
        List.lookup "_id" doc = some (DVal.str (formatDocId 0)) ∧ st = ⟨1, 1⟩
     | .error _ => False) := by
  constructor
  · exact (C1_mixed_zero_bound ⟨"rockset", "g", 1, "mixed", "sequential", 100, -1, -1⟩
      ⟨5, 0, 0, 0, "u"⟩ ⟨0, 0⟩ rfl rfl rfl).1 (by decide)
  · obtain ⟨doc, hdoc, hlook⟩ :=
      (C1_mixed_zero_bound ⟨"rockset", "g", 1, "mixed", "sequential", 0, -1, -1⟩
        ⟨5, 0, 0, 0, "u"⟩ ⟨0, 0⟩ rfl rfl rfl).2 (by decide)
    rw [hdoc]
    exact ⟨hlook, rfl⟩

/-- C2 counterexample: seeding the bound via `SetMaxDoc` does not
establish `counter >= bound`: `SetMaxDoc` sets only the bound, so from the
fresh state the counter 0 is below the new bound 1. -/
theorem C2_counterexample :
    ¬ ((SetMaxDoc 1 ⟨0, 0⟩).max_doc_id ≤ (SetMaxDoc 1 ⟨0, 0⟩).doc_id) := by
  decide

/-- C2 (amended): every generation call preserves `counter >= bound` when
it holds before; the bound grows by exactly one per mixed-mode insert and
is unchanged by every other generation call; but `SetMaxDoc` writes only
the bound (the counter keeps its value), so bound-seeding does not
establish the invariant. -/
theorem C2_invariant (spec : DocumentSpec) (d : Draws) (st st' : GenState)
    (doc : Doc) (m : Nat) :
    (GenerateDoc spec d st = .ok (doc, st') → st.max_doc_id ≤ st.doc_id →
      st'.max_doc_id ≤ st'.doc_id) ∧
    (GenerateDoc spec d st = .ok (doc, st') → spec.Destination = "rockset" →
      spec.Mode = "mixed" →
      ¬ ((d.branch % 100 : Nat) : Int) < spec.UpdatePercentage →
      st'.max_doc_id = st.max_doc_id + 1) ∧
    (GenerateDoc spec d st = .ok (doc, st') →
      ¬ (spec.Destination = "rockset" ∧ spec.Mode = "mixed" ∧
        ¬ ((d.branch % 100 : Nat) : Int) < spec.UpdatePercentage) →
      st'.max_doc_id = st.max_doc_id) ∧
    SetMaxDoc m st = ⟨st.doc_id, m⟩ := by
  refine ⟨?_, ?_, ?_, rfl⟩
  · intro h hinv
    obtain ⟨oid, ha⟩ := GenerateDoc_state h
    rcases assignId_state_cases ha with h1 | h1 | ⟨h1, _⟩
    · rw [h1]; exact hinv
    · rw [h1]
      show st.max_doc_id ≤ st.doc_id + 1
      omega
    · rw [h1]
      show st.max_doc_id + 1 ≤ st.doc_id + 1
      omega
  · intro h hdest hmode hbr
    obtain ⟨oid, ha⟩ := GenerateDoc_state h
    rw [assignId_mixed_insert hdest hmode hbr] at ha
    injection ha with hpair
    injection hpair with h1 h2
    rw [h2.symm]
  · intro h hnot
    obtain ⟨oid, ha⟩ := GenerateDoc_state h
    rcases assignId_state_cases ha with h1 | h1 | ⟨h1, hd, hm, hb⟩
    · rw [h1]
    · rw [h1]
    · exact absurd ⟨hd, hm, hb⟩ hnot

/-- Witness for C2 (amended): a concrete mixed-mode insert from state
(counter 2, bound 1) preserves `counter >= bound` and advances the bound
to 2; `SetMaxDoc 5` overwrites only the bound. -/
theorem C2_witness :
    ((⟨3, 2⟩ : GenState).max_doc_id ≤ (⟨3, 2⟩ : GenState).doc_id) ∧
    SetMaxDoc 5 ⟨2, 1⟩ = ⟨2, 5⟩ := by
  obtain ⟨doc, hdoc, _⟩ := GenerateDoc_of_assignId
    (@assignId_mixed_insert ⟨"rockset", "g", 1, "mixed", "sequential", 0, -1, -1⟩
      ⟨5, 0, 0, 0, "u"⟩ ⟨2, 1⟩ rfl rfl (by decide))
  have h := C2_invariant ⟨"rockset", "g", 1, "mixed", "sequential", 0, -1, -1⟩
    ⟨5, 0, 0, 0, "u"⟩ ⟨2, 1⟩ ⟨3, 2⟩ doc 5
  exact ⟨h.1 hdoc (by decide), h.2.2.2⟩

/-- C7: whenever generation succeeds and the cluster count is positive,
the document carries a `Cluster1` key: with `hotClusterPercentage = 100`
the key is always the designated hot key `0@gmail.com`; with
`hotClusterPercentage` non-positive it always comes from the uniform
branch, landing in the `numClusters` pairwise-distinct uniform keys; with
non-positive cluster count no cluster key is added. -/
theorem C7_cluster_key (spec : DocumentSpec) (d : Draws) (st st' : GenState)
    (doc : Doc) (h : GenerateDoc spec d st = .ok (doc, st')) :
    (0 < spec.NumClusters →
      ∃ ck, List.lookup "Cluster1" doc = some (DVal.str ck) ∧
        (spec.HotClusterPercentage = 100 → ck = "0@gmail.com") ∧
        (spec.HotClusterPercentage ≤ 0 →
          ck ∈ uniformKeys spec.NumClusters.toNat)) ∧
    (spec.NumClusters ≤ 0 → List.lookup "Cluster1" doc = none) ∧
    (uniformKeys spec.NumClusters.toNat).Nodup ∧
    (uniformKeys spec.NumClusters.toNat).length = spec.NumClusters.toNat := by
  obtain ⟨oid, ha⟩ := GenerateDoc_state h
  obtain ⟨doc2, hdoc2, hpos, hneg⟩ := GenerateDoc_cluster_of_assignId ha
  have hdd : doc2 = doc := by
    rw [h] at hdoc2
    injection hdoc2 with hpair
    exact ((Prod.mk.injEq ..).mp hpair).1.symm
  subst hdd
  refine ⟨?_, ?_, uniformKeys_nodup _, uniformKeys_length _⟩
  · intro hn
    obtain ⟨ck, hck, hlook⟩ := hpos hn
    refine ⟨ck, hlook, ?_, ?_⟩
    · intro h100
      have hcond : 0 < spec.HotClusterPercentage ∧
          ((d.hot % 100 : Nat) : Int) < spec.HotClusterPercentage := by
        constructor
        · omega
        · have : d.hot % 100 < 100 := Nat.mod_lt _ (by norm_num)
          omega
      rw [getClusterKey_hot hcond] at hck
      injection hck with hck1
      exact hck1.symm
    · intro hle
      have hcond : ¬ (0 < spec.HotClusterPercentage ∧
          ((d.hot % 100 : Nat) : Int) < spec.HotClusterPercentage) := by
        intro hc
        omega
      rw [getClusterKey_uniform hn hcond] at hck
      injection hck with hck1
      rw [← hck1]
      have htn : 0 < spec.NumClusters.toNat := by omega
      exact List.mem_map.mpr ⟨d.cluster % spec.NumClusters.toNat,
        List.mem_range.mpr (Nat.mod_lt _ htn), rfl⟩
  · intro hle
    exact hneg (by omega)

/-- Witness for C7: with `numClusters = 5, hotClusterPercentage = 100`
the generated cluster key is exactly the designated hot key, and the
5 uniform keys are pairwise distinct. -/
theorem C7_witness :
    (match GenerateDoc ⟨"rockset", "g", 1, "add", "uuid", -1, 5, 100⟩
        ⟨0, 0, 7, 3, "u"⟩ ⟨0, 0⟩ with
     | .ok (doc, _) => List.lookup "Cluster1" doc = some (DVal.str "0@gmail.com")
     | .error _ => False) ∧
    (uniformKeys 5).Nodup ∧ (uniformKeys 5).length = 5 := by
  obtain ⟨doc, hdoc, _⟩ := GenerateDoc_of_assignId
    (@assignId_uuid ⟨"rockset", "g", 1, "add", "uuid", -1, 5, 100⟩
      ⟨0, 0, 7, 3, "u"⟩ ⟨0, 0⟩ rfl (by decide) rfl)
  have h := C7_cluster_key ⟨"rockset", "g", 1, "add", "uuid", -1, 5, 100⟩
    ⟨0, 0, 7, 3, "u"⟩ ⟨0, 0⟩ ⟨0, 0⟩ doc hdoc
  obtain ⟨ck, hlook, hhot, _⟩ := h.1 (by decide)
  refine ⟨?_, h.2.2.1, h.2.2.2⟩
  rw [hdoc]
  show List.lookup "Cluster1" doc = some (DVal.str "0@gmail.com")
  rw [hlook, hhot rfl]

/-- C8: total progress is an accumulating counter advanced by the batch
size per submitted unit (`wps * batchSize` per tick); with a non-negative
budget the dispatch loop runs a further tick exactly while the counter is
below the budget and terminates once the counter has reached it; with a
negative (absent) budget it never terminates on its own. -/
theorem C8_budget (numDocs : Int) (wps batchSize w fuel : Nat) :
    innerDispatch batchSize wps w = w + wps * batchSize ∧
    (numDocs < 0 → dispatchRun numDocs wps batchSize fuel w = none) ∧
    (0 ≤ numDocs → (w : Int) < numDocs →
      dispatchRun numDocs wps batchSize (fuel + 1) w
        = dispatchRun numDocs wps batchSize fuel (innerDispatch batchSize wps w)) ∧
    (0 ≤ numDocs → numDocs ≤ (w : Int) →
      dispatchRun numDocs wps batchSize (fuel + 1) w = some w) := by
  refine ⟨innerDispatch_eq batchSize wps w, ?_, ?_, ?_⟩
  · intro hneg
    induction fuel generalizing w with
    | zero => rfl
    | succ fuel ih =>
      unfold dispatchRun
      rw [if_pos (by simp [budgetGuard]; omega)]
      exact ih _
  · intro hnn hlt
    conv_lhs => unfold dispatchRun
    rw [if_pos (by simp [budgetGuard]; omega)]
  · intro hnn hge
    unfold dispatchRun
    rw [if_neg (by simp [budgetGuard]; omega)]

/-- Witness for C8: budget 6, 2 units per tick, batch size 3: one tick
advances the counter from 0 to 6; the guard admits the tick at 0 and
terminates the loop at 6; without a budget the loop never finishes. -/
theorem C8_witness :
    innerDispatch 3 2 0 = 0 + 2 * 3 ∧
    dispatchRun (-1) 2 3 5 0 = none ∧
    dispatchRun 6 2 3 1 0 = dispatchRun 6 2 3 0 (innerDispatch 3 2 0) ∧
    dispatchRun 6 2 3 1 6 = some 6 := by
  exact ⟨(C8_budget (-1) 2 3 0 5).1, (C8_budget (-1) 2 3 0 5).2.1 (by decide),
    (C8_budget 6 2 3 0 0).2.2.1 (by decide) (by decide),
    (C8_budget 6 2 3 6 0).2.2.2 (by decide) (by decide)⟩

/-- C9: each pass of the patch template stream hands off a permutation of
its catalog — every template exactly once per pass, 2 templates for the
add style and 16 for the replace style — and each pass is shuffled by its
own, per-pass random draws. -/
theorem C9_shuffle_pass (js : Nat → Nat → Nat) (pass : Nat) (p1 : String)
    (v1 v2 : DVal) (v : Nat → DVal) :
    List.Perm (shuffleAndFillChannel (js pass) (addCatalog p1 v1 v2))
      (addCatalog p1 v1 v2) ∧
    (addCatalog p1 v1 v2).length = 2 ∧
    List.Perm (shuffleAndFillChannel (js pass) (replaceCatalog v))
      (replaceCatalog v) ∧
    (replaceCatalog v).length = 16 :=
  ⟨shuffleAndFillChannel_perm _ _, rfl, shuffleAndFillChannel_perm _ _, rfl⟩

/-- C10: when the destination is not "rockset", generation adds no `_id`
key in any run/id mode, leaves the id counter and bound untouched, and
the document holds exactly the payload fields plus `_event_time`, `_ts`,
`generator_identifier`, and `Cluster1` exactly when the cluster count is
positive. -/
theorem C10_nonrockset (spec : DocumentSpec) (d : Draws) (st : GenState)
    (hdest : spec.Destination ≠ "rockset") :
    ∃ doc, GenerateDoc spec d st = .ok (doc, st) ∧
      List.lookup "_id" doc = none ∧
      keys doc = payloadFields
        ++ (if 0 < spec.NumClusters then ["Cluster1"] else [])
        ++ ["_event_time", "_ts", "generator_identifier"] := by
  have ha := @assignId_nonrockset spec d st hdest
  by_cases hn : 0 < spec.NumClusters
  · obtain ⟨ck, hck⟩ := @getClusterKey_isOk spec.NumClusters spec.HotClusterPercentage
      d.hot d.cluster hn
    have h1 : keys (setKey payloadDoc "Cluster1" (DVal.str ck))
        = payloadFields ++ ["Cluster1"] :=
      keys_setKey_notMem _ _ _ (by rw [keys_payloadDoc]; decide)
    have h2 : keys (setKey (setKey payloadDoc "Cluster1" (DVal.str ck))
          "_event_time" DVal.time)
        = (payloadFields ++ ["Cluster1"]) ++ ["_event_time"] :=
      keys_setKey_notMem _ _ _ (by rw [h1]; decide)
    have h3 : keys (setKey (setKey (setKey payloadDoc "Cluster1" (DVal.str ck))
          "_event_time" DVal.time) "_ts" DVal.time)
        = ((payloadFields ++ ["Cluster1"]) ++ ["_event_time"]) ++ ["_ts"] :=
      keys_setKey_notMem _ _ _ (by rw [h2]; decide)
    have h4 : keys (setKey (setKey (setKey (setKey payloadDoc "Cluster1"
          (DVal.str ck)) "_event_time" DVal.time) "_ts" DVal.time)
          "generator_identifier" (DVal.str spec.GeneratorIdentifier))
        = (((payloadFields ++ ["Cluster1"]) ++ ["_event_time"]) ++ ["_ts"])
          ++ ["generator_identifier"] :=
      keys_setKey_notMem _ _ _ (by rw [h3]; decide)
    have hgen : GenerateDoc spec d st
        = .ok (setKey (setKey (setKey (setKey payloadDoc "Cluster1"
            (DVal.str ck)) "_event_time" DVal.time) "_ts" DVal.time)
            "generator_identifier" (DVal.str spec.GeneratorIdentifier), st) := by
      unfold GenerateDoc
      rw [ha]
      simp only
      rw [finishDoc_pos hn hck]
    refine ⟨_, hgen, ?_, ?_⟩
    · rw [lookup_finishTail _ _ _ (by decide) (by decide) (by decide),
        lookup_setKey_ne _ _ _ _ (by decide)]
      exact lookup_none_of_not_mem_keys _ _ (by rw [keys_payloadDoc]; decide)
    · rw [h4, if_pos hn]
      simp [List.append_assoc]
  · have h1 : keys (setKey payloadDoc "_event_time" DVal.time)
        = payloadFields ++ ["_event_time"] :=
      keys_setKey_notMem _ _ _ (by rw [keys_payloadDoc]; decide)
    have h2 : keys (setKey (setKey payloadDoc "_event_time" DVal.time)
          "_ts" DVal.time)
        = (payloadFields ++ ["_event_time"]) ++ ["_ts"] :=
      keys_setKey_notMem _ _ _ (by rw [h1]; decide)
    have h3 : keys (setKey (setKey (setKey payloadDoc "_event_time" DVal.time)
          "_ts" DVal.time) "generator_identifier"
          (DVal.str spec.GeneratorIdentifier))
        = ((payloadFields ++ ["_event_time"]) ++ ["_ts"])
          ++ ["generator_identifier"] :=
      keys_setKey_notMem _ _ _ (by rw [h2]; decide)
    have hgen : GenerateDoc spec d st
        = .ok (setKey (setKey (setKey payloadDoc "_event_time" DVal.time)
            "_ts" DVal.time) "generator_identifier"
            (DVal.str spec.GeneratorIdentifier), st) := by
      unfold GenerateDoc
      rw [ha]
      simp only
      rw [finishDoc_nonpos hn]
    refine ⟨_, hgen, ?_, ?_⟩
    · rw [lookup_finishTail _ _ _ (by decide) (by decide) (by decide)]
      exact lookup_none_of_not_mem_keys _ _ (by rw [keys_payloadDoc]; decide)
    · rw [h3, if_neg hn]
      simp [List.append_assoc]

/-- Witness for C10: a concrete non-rockset (elastic) generation with
5 clusters: no `_id`, state untouched, and exactly the expected keys. -/
theorem C10_witness :
    (match GenerateDoc ⟨"elastic", "g", 1, "add", "sequential", -1, 5, -1⟩
        ⟨0, 0, 7, 3, "u"⟩ ⟨4, 9⟩ with
     | .ok (doc, st) =>
        List.lookup "_id" doc = none ∧ st = ⟨4, 9⟩ ∧
          keys doc = payloadFields ++ ["Cluster1"]
            ++ ["_event_time", "_ts", "generator_identifier"]
     | .error _ => False) := by
  obtain ⟨doc, hdoc, hid, hkeys⟩ :=
    C10_nonrockset ⟨"elastic", "g", 1, "add", "sequential", -1, 5, -1⟩
      ⟨0, 0, 7, 3, "u"⟩ ⟨4, 9⟩ (by decide)
  rw [hdoc]
  refine ⟨hid, rfl, ?_⟩
  rw [hkeys]
  rfl

end Rockbench
